import Mathlib

/-!
Shallow embedding of the behavioural decision funnel of the
Goodreads insights / recommendations application (src/app.js).

JavaScript numbers are modelled as rationals, page counts as naturals
and publication years as integers.  Strings that the code only tests
for truthiness are modelled as `Option` (null) or as `String` with the
empty string denoting "unset".  A parsed `Date` value is modelled as a
rational millisecond timestamp; an absent or unparseable date is
`none` (an unparseable date yields `NaN` in the source, and every
comparison against `NaN` is false, which coincides with the `none`
branch returning 0).
-/

namespace GoodreadsFunnel

/-- Length bucket used by the funnel scoring (quick / moderate / long),
matching the string constants of src/app.js. -/
inductive LengthBucket where
  | quick
  | moderate
  | long
deriving DecidableEq, Repr

/-- Era bucket used by the funnel scoring (classic / late20th / modern),
matching the string constants of src/app.js. -/
inductive EraBucket where
  | classic
  | late20th
  | modern
deriving DecidableEq, Repr

/-- Normalised book record (normaliseBook in src/app.js).  `pages = 0`
and `publicationYear ≤ 0` mean unknown; `averageRating = 0` means no
rating; `dateRead` is the read/unread discriminator; `dateAdded` is the
parsed timestamp in milliseconds, `none` when missing or unparseable. -/
structure Book where
  title : Option String
  author : Option String
  pages : Nat
  publicationYear : Int
  averageRating : ℚ
  userRating : ℚ
  dateRead : Option String
  dateAdded : Option ℚ
deriving DecidableEq, Repr

/-- Behaviour profile derived from the read books
(deriveBehaviourProfile in src/app.js).  The empty profile produced for
an empty read set has `dominantLength = none`, `dominantEra = none`,
`topAuthors = []`; its absent `avgRating` field is modelled as 0, which
behaves identically under the only use `avgRating > 0`. -/
structure BehaviourProfile where
  dominantLength : Option LengthBucket
  dominantEra : Option EraBucket
  topAuthors : List String
  avgRating : ℚ
deriving DecidableEq, Repr

/-- Per-step selections of the funnel; the empty string means "not yet
chosen", matching the falsy empty-string initial values in src/app.js. -/
structure Selections where
  timeInvestment : String
  behaviourPreference : String
  backlogPreference : String
  riskPreference : String
deriving DecidableEq, Repr

/-- Selections object as freshly initialised (all fields empty). -/
def emptySelections : Selections :=
  { timeInvestment := "", behaviourPreference := "", backlogPreference := "", riskPreference := "" }

/-- Mutable decision state of the funnel (decisionState in src/app.js). -/
structure DecisionState where
  currentStep : Nat
  selections : Selections
  candidates : List Book
  allBooks : List Book
  behaviourProfile : Option BehaviourProfile
deriving DecidableEq, Repr

/-- The function average of src/app.js: 0 for the empty list, else the
sum divided by the length. -/
def average (arr : List ℚ) : ℚ :=
  if arr = [] then 0 else arr.sum / (arr.length : ℚ)

/-- Stable descending sort by a key, modelling the JavaScript
`arr.sort((a, b) => keyB - keyA)` calls of src/app.js.  The insertion
sort places each element before the elements with strictly smaller keys
and after the earlier elements with equal keys, so it is stable;
Array.prototype.sort is stable and the numeric comparators used in the
source are consistent, hence any stable descending sort computes the
same list. -/
def sortDescBy {α β : Type} [LinearOrder β] (key : α → β) (l : List α) : List α :=
  l.insertionSort (fun a b => key b ≤ key a)

/-- Length bucket of a page count, as computed inline in
deriveBehaviourProfile and applyBehaviourScoring of src/app.js
(`pages < 300 ? quick : pages <= 500 ? moderate : long`).  Callers guard
with `pages > 0` before consulting it. -/
def lengthBucketOf (pages : Nat) : LengthBucket :=
  if pages < 300 then .quick else if pages ≤ 500 then .moderate else .long

/-- Era bucket of a publication year, as computed inline in
deriveBehaviourProfile and applyBehaviourScoring of src/app.js
(`year < 1950 ? classic : year <= 1999 ? late20th : modern`).  Callers
guard with `publicationYear > 0` before consulting it. -/
def eraBucketOf (year : Int) : EraBucket :=
  if year < 1950 then .classic else if year ≤ 1999 then .late20th else .modern

/-- Length bucket of a book as an optional value: `none` when the page
count is unknown (0), used to state the alignment claims. -/
def lengthBucketOpt (pages : Nat) : Option LengthBucket :=
  if 0 < pages then some (lengthBucketOf pages) else none

/-- Era bucket of a book as an optional value: `none` when the
publication year is unknown (≤ 0), used to state the alignment
claims. -/
def eraBucketOpt (year : Int) : Option EraBucket :=
  if 0 < year then some (eraBucketOf year) else none

/-- Membership of a possibly-null author in a top-authors list, the
JavaScript `topAuthors.includes(book.author)`; a null author is in no
list of strings. -/
def authorIn (a : Option String) (l : List String) : Bool :=
  match a with
  | some s => l.contains s
  | none => false

/-- Counting map over the authors in first-seen order, modelling the
JavaScript plain object `authorCounts` of deriveBehaviourProfile
(string keys enumerate in insertion order). -/
def bumpCount (a : String) : List (String × Nat) → List (String × Nat)
  | [] => [(a, 1)]
  | (b, n) :: rest => if b = a then (b, n + 1) :: rest else (b, n) :: bumpCount a rest

/-- Author counts of a list of author names in first-seen key order. -/
def authorCountsList (authors : List String) : List (String × Nat) :=
  authors.foldl (fun acc a => bumpCount a acc) []

/-- Length-bucket count over the read books with a known page count,
modelling the field of the `lengthCounts` object that
deriveBehaviourProfile in src/app.js increments for bucket `t`. -/
def lengthCountOf (readBooks : List Book) (t : LengthBucket) : Nat :=
  readBooks.countP (fun b => decide (0 < b.pages ∧ lengthBucketOf b.pages = t))

/-- Era-bucket count over the read books with a known publication year,
modelling the field of the `eraCounts` object that
deriveBehaviourProfile in src/app.js increments for bucket `t`. -/
def eraCountOf (readBooks : List Book) (t : EraBucket) : Nat :=
  readBooks.countP (fun b => decide (0 < b.publicationYear ∧ eraBucketOf b.publicationYear = t))

/-- Position of a length bucket in the fixed key-insertion order
quick, moderate, long of the `lengthCounts` object (the order
`Object.entries` enumerates and the stable sort preserves on ties). -/
def lengthOrder : LengthBucket → Nat
  | .quick => 0
  | .moderate => 1
  | .long => 2

/-- Position of an era bucket in the fixed key-insertion order classic,
late20th, modern of the `eraCounts` object. -/
def eraOrder : EraBucket → Nat
  | .classic => 0
  | .late20th => 1
  | .modern => 2

/-- The function deriveBehaviourProfile of src/app.js, as a function of
the global `books` list.  Read books are those with a non-null
`dateRead`; with no read books the empty profile is returned.  Each
dominant bucket is the head of the stable descending sort of the entry
list in key-insertion order (`Object.entries(counts).sort((a, b) =>
b[1] - a[1])[0][0]`), top authors are the first five of the sorted
author counts, and avgRating averages the positive average ratings. -/
def deriveBehaviourProfile (books : List Book) : BehaviourProfile :=
  let readBooks := books.filter (fun b => b.dateRead ≠ none)
  if readBooks = [] then
    { dominantLength := none, dominantEra := none, topAuthors := [], avgRating := 0 }
  else
    let lengthEntries : List (LengthBucket × Nat) :=
      [(.quick, lengthCountOf readBooks .quick), (.moderate, lengthCountOf readBooks .moderate),
       (.long, lengthCountOf readBooks .long)]
    let dominantLength := ((sortDescBy (fun e => e.2) lengthEntries).headD (.quick, 0)).1
    let eraEntries : List (EraBucket × Nat) :=
      [(.classic, eraCountOf readBooks .classic), (.late20th, eraCountOf readBooks .late20th),
       (.modern, eraCountOf readBooks .modern)]
    let dominantEra := ((sortDescBy (fun e => e.2) eraEntries).headD (.classic, 0)).1
    let topAuthors :=
      ((sortDescBy (fun e => e.2) (authorCountsList (readBooks.filterMap (fun b => b.author)))).take 5).map
        (fun e => e.1)
    { dominantLength := some dominantLength
      dominantEra := some dominantEra
      topAuthors := topAuthors
      avgRating := average ((readBooks.map (fun b => b.averageRating)).filter (fun r => 0 < r)) }

/-- The function applyTimeFilter of src/app.js: an unset or "any"
selection returns the list unchanged; otherwise books whose page count
is not positive are dropped (the source returns `selection === "any"`,
false on this branch) and the page-count predicate of the selection is
applied. -/
def applyTimeFilter (books : List Book) (selection : String) : List Book :=
  if selection = "" ∨ selection = "any" then books
  else
    books.filter fun book =>
      if book.pages = 0 then decide (selection = "any")
      else if selection = "quick" then decide (book.pages < 300)
      else if selection = "moderate" then decide (300 ≤ book.pages ∧ book.pages ≤ 500)
      else if selection = "long" then decide (500 < book.pages)
      else true

/-- The function applyBehaviourScoring of src/app.js.  With both
dominant buckets null the bonus is 0; "familiar" rewards matching the
dominant length (+1.5), the dominant era (+1.5) and a top author
(+0.5); "different" rewards a known non-matching length (+1), a known
non-matching era (+1) and a non-top author (+0.5). -/
def applyBehaviourScoring (book : Book) (profile : BehaviourProfile) (preference : String) : ℚ :=
  if profile.dominantLength = none ∧ profile.dominantEra = none then 0
  else if preference = "familiar" then
    (match profile.dominantLength with
      | some dl => if 0 < book.pages ∧ lengthBucketOf book.pages = dl then 3/2 else 0
      | none => 0) +
    (match profile.dominantEra with
      | some de => if 0 < book.publicationYear ∧ eraBucketOf book.publicationYear = de then 3/2 else 0
      | none => 0) +
    (if authorIn book.author profile.topAuthors then 1/2 else 0)
  else if preference = "different" then
    (match profile.dominantLength with
      | some dl => if 0 < book.pages ∧ lengthBucketOf book.pages ≠ dl then 1 else 0
      | none => 0) +
    (match profile.dominantEra with
      | some de => if 0 < book.publicationYear ∧ eraBucketOf book.publicationYear ≠ de then 1 else 0
      | none => 0) +
    (if authorIn book.author profile.topAuthors then 0 else 1/2)
  else 0

/-- Milliseconds in the 365-day year used by applyBacklogScoring
(`1000 * 60 * 60 * 24 * 365`). -/
def msPerYear : ℚ := 1000 * 60 * 60 * 24 * 365

/-- The function applyBacklogScoring of src/app.js: 0 for a falsy
`dateAdded`; otherwise the age in 365-day years since `dateAdded`
drives the bonus ("old": 2 at age ≥ 3, 1 at age ≥ 1, else 0; "new": 2
at age < 1, 1 at age < 3, else 0). -/
def applyBacklogScoring (now : ℚ) (book : Book) (preference : String) : ℚ :=
  match book.dateAdded with
  | none => 0
  | some added =>
    let yearsSinceAdded := (now - added) / msPerYear
    if preference = "old" then
      if 3 ≤ yearsSinceAdded then 2 else if 1 ≤ yearsSinceAdded then 1 else 0
    else if preference = "new" then
      if yearsSinceAdded < 1 then 2 else if yearsSinceAdded < 3 then 1 else 0
    else 0

/-- The function applyRiskScoring of src/app.js.  The rating is
`book.averageRating || 0`, the identity here since 0 already denotes
"no rating".  "safe" returns rating × 0.5; "risky" returns
1.5 − 0.3 × |rating − avgRating| exactly when the profile exists with a
positive avgRating and rating < avgRating × 1.1 and 3.7 ≤ rating ≤ 4.1,
else 0. -/
def applyRiskScoring (book : Book) (preference : String) (profile : Option BehaviourProfile) : ℚ :=
  let rating := book.averageRating
  if preference = "safe" then rating * (1/2)
  else if preference = "risky" then
    match profile with
    | some p =>
      if 0 < p.avgRating then
        let distanceFromAvg := |rating - p.avgRating|
        if rating < p.avgRating * (11/10) ∧ 37/10 ≤ rating ∧ rating ≤ 41/10 then
          3/2 - distanceFromAvg * (3/10)
        else 0
      else 0
    | none => 0
  else 0

/-- The function calculateFinalScore of src/app.js, with the pieces of
the global decision state it reads (profile, selections) and the clock
passed explicitly.  Each bonus is added only under the truthiness
guards of the source. -/
def calculateFinalScore (profile : Option BehaviourProfile) (sel : Selections) (now : ℚ)
    (book : Book) : ℚ :=
  let base := book.averageRating
  let s1 :=
    match profile with
    | some p =>
      if sel.behaviourPreference ≠ "" then applyBehaviourScoring book p sel.behaviourPreference
      else 0
    | none => 0
  let s2 :=
    if sel.backlogPreference ≠ "" then applyBacklogScoring now book sel.backlogPreference else 0
  let s3 :=
    if sel.riskPreference ≠ "" then applyRiskScoring book sel.riskPreference profile else 0
  base + s1 + s2 + s3

/-- Result record of runRecommendation in src/app.js
(`{book, score, totalCandidates}`). -/
structure Recommendation where
  book : Book
  score : ℚ
  totalCandidates : Nat
deriving DecidableEq, Repr

/-- The local `scored` array of runRecommendation in src/app.js: every
current candidate paired with its final score. -/
def scoredCandidates (st : DecisionState) (now : ℚ) : List (Book × ℚ) :=
  st.candidates.map (fun b => (b, calculateFinalScore st.behaviourProfile st.selections now b))

/-- The `candidates` array computed inside runRecommendation in
src/app.js when a runner-up is within 0.5 of the top score: the scored
candidates, in sorted order, whose score is at least the top score
minus 0.5 (`scored.filter(s => s.score >= winner.score - 0.5)`, where
`winner` is still `scored[0]`). -/
def nearTieSet (top : Book × ℚ) (rest : List (Book × ℚ)) : List (Book × ℚ) :=
  (top :: rest).filter (fun (s : Book × ℚ) => decide (top.2 - 1/2 ≤ s.2))

/-- Winner choice of runRecommendation in src/app.js, given the sorted
scored list split into its head and tail and the random draw.  The
winner is the top scorer (`scored[0]`) unless a runner-up exists within
0.5 of it, in which case a uniformly random index into the filtered
near-tie set picks the winner (`Math.floor(Math.random() *
cands.length)` is modelled by `pick % cands.length`, which ranges over
exactly the valid indices of the nonempty near-tie set). -/
def recWinner (top : Book × ℚ) (rest : List (Book × ℚ)) (pick : Nat) : Book × ℚ :=
  match rest with
  | [] => top
  | second :: _ =>
    if top.2 - 1/2 ≤ second.2 then
      (nearTieSet top rest).getD (pick % (nearTieSet top rest).length) top
    else top

/-- The function runRecommendation of src/app.js, with the clock and
the random draw passed explicitly.  With no candidates the "no match"
result (`none`) is produced; otherwise the scored candidates are sorted
descending by score and `recWinner` selects the winner. -/
def runRecommendation (st : DecisionState) (now : ℚ) (pick : Nat) : Option Recommendation :=
  if st.candidates = [] then none
  else
    match sortDescBy (fun (s : Book × ℚ) => s.2) (scoredCandidates st now) with
    | [] => none
    | top :: rest =>
      some { book := (recWinner top rest pick).1, score := (recWinner top rest pick).2,
             totalCandidates := (scoredCandidates st now).length }

/-- Assignment `decisionState.selections[step] = value` of the step
button handler in src/app.js, where `step` is the dataset key naming
the selection field; an unknown key touches none of the four modelled
fields. -/
def setSelection (s : Selections) (field value : String) : Selections :=
  if field = "timeInvestment" then { s with timeInvestment := value }
  else if field = "behaviourPreference" then { s with behaviourPreference := value }
  else if field = "backlogPreference" then { s with backlogPreference := value }
  else if field = "riskPreference" then { s with riskPreference := value }
  else s

/-- State effect of one step-button click (setupStepButtons in
src/app.js).  The selection is stored first; at step 1 the time filter
is applied and an empty result rejects the transition (the handler
returns after showNoCandidatesMessage, leaving step and candidates
unchanged — but the stored selection stays); steps 2 and 3 advance;
step 4 runs the recommendation, which does not mutate the state. -/
def stepClick (st : DecisionState) (field value : String) : DecisionState :=
  let st1 := { st with selections := setSelection st.selections field value }
  if st1.currentStep = 1 then
    let filtered := applyTimeFilter st1.candidates value
    if filtered = [] then st1
    else { st1 with candidates := filtered, currentStep := 2 }
  else if st1.currentStep = 2 then { st1 with currentStep := 3 }
  else if st1.currentStep = 3 then { st1 with currentStep := 4 }
  else st1

/-- State effect of one back-button click (setupBackButtons in
src/app.js).  When the target is below the current step, the selections
cleared are decided by the CURRENT step alone: risk if currentStep > 3,
backlog if currentStep > 2, behaviour if currentStep > 1.  A target of
step 1 additionally restores `candidates` from `allBooks` and clears
the step-1 selection.  Finally the current step becomes the target. -/
def goBack (st : DecisionState) (targetStep : Nat) : DecisionState :=
  let sel0 := st.selections
  let sel :=
    if targetStep < st.currentStep then
      let s1 := if 3 < st.currentStep then { sel0 with riskPreference := "" } else sel0
      let s2 := if 2 < st.currentStep then { s1 with backlogPreference := "" } else s1
      if 1 < st.currentStep then { s2 with behaviourPreference := "" } else s2
    else sel0
  let st1 := { st with selections := sel }
  let st2 :=
    if targetStep = 1 then
      { st1 with candidates := st1.allBooks,
                 selections := { st1.selections with timeInvestment := "" } }
    else st1
  { st2 with currentStep := targetStep }

/-- The function relaxConstraint of src/app.js: candidates are restored
from `allBooks`, and the step-1 selection is cleared only when the
current step equals 2 (a condition that never holds on the only path
that shows the relax button, since a rejected step-1 transition leaves
the current step at 1). -/
def relaxConstraint (st : DecisionState) : DecisionState :=
  let st1 := { st with candidates := st.allBooks }
  if st1.currentStep = 2 then
    { st1 with selections := { st1.selections with timeInvestment := "" } }
  else st1

/-- The function resetDecisionFlow of src/app.js: step pointer back to
1, all four selections emptied, candidates restored from `allBooks`;
`allBooks` and the behaviour profile are untouched. -/
def resetDecisionFlow (st : DecisionState) : DecisionState :=
  { st with currentStep := 1, selections := emptySelections, candidates := st.allBooks }

/-- The state set up by initDecisionEngine in src/app.js, as a function
of the global `books` list and of the want-to-read list it receives:
`allBooks` and `candidates` hold the backlog, the behaviour profile is
derived once from the read books, the step pointer is 1 and all
selections are empty. -/
def initDecisionEngine (books wantToReadBooks : List Book) : DecisionState :=
  { currentStep := 1
    selections := emptySelections
    candidates := wantToReadBooks
    allBooks := wantToReadBooks
    behaviourProfile := some (deriveBehaviourProfile books) }

/-- One user interaction with the funnel: a step-button click, a
back-button click, a relax-constraint click or a start-over click. -/
inductive FunnelEvent where
  | click (field value : String)
  | back (targetStep : Nat)
  | relax
  | reset
deriving DecidableEq, Repr

/-- State effect of one funnel event. -/
def applyEvent (st : DecisionState) : FunnelEvent → DecisionState
  | .click field value => stepClick st field value
  | .back targetStep => goBack st targetStep
  | .relax => relaxConstraint st
  | .reset => resetDecisionFlow st

/-- State after a sequence of funnel events. -/
def applyEvents (st : DecisionState) (evs : List FunnelEvent) : DecisionState :=
  evs.foldl applyEvent st

/-- State after a sequence of step-button clicks (forward advances). -/
def applyClicks (st : DecisionState) (evs : List (String × String)) : DecisionState :=
  evs.foldl (fun (s : DecisionState) (e : String × String) => stepClick s e.1 e.2) st

/-- Concrete book constructor used by the example inputs of the
development (title and user rating are irrelevant to the funnel). -/
def exBook (pages : Nat) (year : Int) (rating : ℚ) (author : Option String)
    (added : Option ℚ) (read : Option String) : Book :=
  { title := none, author := author, pages := pages, publicationYear := year,
    averageRating := rating, userRating := 0, dateRead := read, dateAdded := added }

/-- Book used by the step-1 rejection scenario (400 pages, so the
"quick" filter empties the candidate set). -/
def relaxBook : Book := exBook 400 0 0 none none none

/-- State after clicking "quick" at step 1 with relaxBook as the only
candidate: the filter result is empty so the transition is rejected. -/
def rejectedState : DecisionState :=
  stepClick (initDecisionEngine [] [relaxBook]) "timeInvestment" "quick"

/-- Candidate books of the near-tie example of the spec, scoring 5, 4.6
and 3 under empty selections and an absent profile. -/
def nearTieBooks : List Book :=
  [exBook 100 0 5 none none none, exBook 100 0 (46/10) none none none,
   exBook 100 0 3 none none none]

/-- Decision state of the near-tie example: three candidates whose
final scores are their average ratings 5, 4.6 and 3. -/
def nearTieState : DecisionState :=
  { currentStep := 4, selections := emptySelections, candidates := nearTieBooks,
    allBooks := nearTieBooks, behaviourProfile := none }

/-!  Theorems.  -/

theorem sortDescBy_perm {α β : Type} [LinearOrder β] (key : α → β) (l : List α) :
    (sortDescBy key l).Perm l :=
  List.perm_insertionSort _ l

theorem sortDescBy_sorted {α β : Type} [LinearOrder β] (key : α → β) (l : List α) :
    (sortDescBy key l).Sorted (fun a b => key b ≤ key a) := by
  haveI : IsTotal α (fun a b => key b ≤ key a) := ⟨fun a b => le_total (key b) (key a)⟩
  haveI : IsTrans α (fun a b => key b ≤ key a) := ⟨fun a b c h1 h2 => le_trans h2 h1⟩
  exact List.sorted_insertionSort _ l

theorem lengthBucketOpt_eq_some (pages : Nat) (t : LengthBucket) :
    lengthBucketOpt pages = some t ↔ 0 < pages ∧ lengthBucketOf pages = t := by
  unfold lengthBucketOpt
  split_ifs with h <;> simp [h]

theorem eraBucketOpt_eq_some (year : Int) (t : EraBucket) :
    eraBucketOpt year = some t ↔ 0 < year ∧ eraBucketOf year = t := by
  unfold eraBucketOpt
  split_ifs with h <;> simp [h]

theorem lengthBucketOpt_known_ne (pages : Nat) (t : LengthBucket) :
    (lengthBucketOpt pages ≠ none ∧ lengthBucketOpt pages ≠ some t) ↔
      0 < pages ∧ lengthBucketOf pages ≠ t := by
  unfold lengthBucketOpt
  split_ifs with h <;> simp [h]

theorem eraBucketOpt_known_ne (year : Int) (t : EraBucket) :
    (eraBucketOpt year ≠ none ∧ eraBucketOpt year ≠ some t) ↔
      0 < year ∧ eraBucketOf year ≠ t := by
  unfold eraBucketOpt
  split_ifs with h <;> simp [h]

/-- Claim C7: the step-1 time filter keeps, for "quick", exactly the
books with 0 < pages < 300; for "moderate", exactly those with
300 ≤ pages ≤ 500; for "long", exactly those with pages > 500; a book
with unknown page count (0 pages) passes none of these three filters;
and "any" returns the input list unchanged. -/
theorem applyTimeFilter_spec (books : List Book) :
    applyTimeFilter books "any" = books ∧
    applyTimeFilter books "quick" =
      books.filter (fun b => decide (0 < b.pages ∧ b.pages < 300)) ∧
    applyTimeFilter books "moderate" =
      books.filter (fun b => decide (300 ≤ b.pages ∧ b.pages ≤ 500)) ∧
    applyTimeFilter books "long" =
      books.filter (fun b => decide (500 < b.pages)) ∧
    (∀ sel, sel = "quick" ∨ sel = "moderate" ∨ sel = "long" →
      ∀ b ∈ applyTimeFilter books sel, 0 < b.pages) := by
  have hq : applyTimeFilter books "quick" =
      books.filter (fun b => decide (0 < b.pages ∧ b.pages < 300)) := by
    simp only [applyTimeFilter]
    rw [if_neg (by simp)]
    refine List.filter_congr ?_
    intro b _
    by_cases hb : b.pages = 0
    · simp [hb]
    · simp only [hb, if_false]
      rw [if_pos trivial]
      exact decide_eq_decide.mpr (by omega)
  have hm : applyTimeFilter books "moderate" =
      books.filter (fun b => decide (300 ≤ b.pages ∧ b.pages ≤ 500)) := by
    simp only [applyTimeFilter]
    rw [if_neg (by simp)]
    refine List.filter_congr ?_
    intro b _
    by_cases hb : b.pages = 0
    · simp [hb]
    · simp only [hb, if_false]
      rw [if_neg (by simp), if_pos trivial]
  have hl : applyTimeFilter books "long" =
      books.filter (fun b => decide (500 < b.pages)) := by
    simp only [applyTimeFilter]
    rw [if_neg (by simp)]
    refine List.filter_congr ?_
    intro b _
    by_cases hb : b.pages = 0
    · simp [hb]
    · simp only [hb, if_false]
      rw [if_neg (by simp), if_neg (by simp), if_pos trivial]
  refine ⟨by simp [applyTimeFilter], hq, hm, hl, ?_⟩
  intro sel hsel b hb
  rcases hsel with h | h | h <;> subst h
  · rw [hq] at hb
    have := (List.mem_filter.mp hb).2
    simp at this
    omega
  · rw [hm] at hb
    have := (List.mem_filter.mp hb).2
    simp at this
    omega
  · rw [hl] at hb
    have := (List.mem_filter.mp hb).2
    simp at this
    omega

/-- Witness for C7 at the example of the claim: filtering books of
200, 400 and 600 pages with "quick" keeps exactly the 200-page book,
whose page count is positive. -/
theorem applyTimeFilter_spec_witness :
    applyTimeFilter
        [exBook 200 0 0 none none none, exBook 400 0 0 none none none,
         exBook 600 0 0 none none none] "quick" =
      [exBook 200 0 0 none none none] ∧
    0 < (exBook 200 0 0 none none none).pages := by
  refine ⟨by decide, ?_⟩
  exact (applyTimeFilter_spec
      [exBook 200 0 0 none none none, exBook 400 0 0 none none none,
       exBook 600 0 0 none none none]).2.2.2.2 "quick" (Or.inl rfl)
    (exBook 200 0 0 none none none) (by decide)

/-- Claim C4: with selection "safe" the risk bonus is rating × 0.5 for
every profile; with "risky" and a present profile the bonus is
1.5 − 0.3 × |rating − avgRating| exactly when avgRating is positive,
rating < avgRating × 1.1 and rating lies in [3.7, 4.1], and 0 in every
other case; with "risky" and an absent profile the bonus is 0. -/
theorem applyRiskScoring_spec (book : Book) (p : BehaviourProfile) :
    (∀ prof, applyRiskScoring book "safe" prof = book.averageRating * (1/2)) ∧
    (applyRiskScoring book "risky" (some p) =
      if 0 < p.avgRating ∧ book.averageRating < p.avgRating * (11/10) ∧
          37/10 ≤ book.averageRating ∧ book.averageRating ≤ 41/10 then
        3/2 - (3/10) * |book.averageRating - p.avgRating|
      else 0) ∧
    applyRiskScoring book "risky" none = 0 := by
  refine ⟨fun prof => by simp [applyRiskScoring], ?_, by simp [applyRiskScoring]⟩
  simp only [applyRiskScoring]
  rw [if_neg (by simp), if_pos trivial]
  by_cases h1 : 0 < p.avgRating
  · by_cases h2 : book.averageRating < p.avgRating * (11 / 10) ∧
        37 / 10 ≤ book.averageRating ∧ book.averageRating ≤ 41 / 10
    · rw [if_pos h1, if_pos h2, if_pos ⟨h1, h2⟩]
      ring
    · rw [if_pos h1, if_neg h2, if_neg (fun hc => h2 hc.2)]
  · rw [if_neg h1, if_neg (fun hc => h1 hc.1)]

/-- Claim C6: with a missing or unparseable dateAdded the backlog bonus
is 0 for every selection; otherwise, with the age measured in 365-day
years since dateAdded, "old" yields 2 at age ≥ 3, 1 at age in [1, 3)
and 0 below, while "new" yields 2 at age < 1, 1 at age in [1, 3) and 0
at age ≥ 3. -/
theorem applyBacklogScoring_spec (now : ℚ) (book : Book) :
    msPerYear = 1000 * 60 * 60 * 24 * 365 ∧
    (book.dateAdded = none → ∀ pref, applyBacklogScoring now book pref = 0) ∧
    (∀ added, book.dateAdded = some added →
      applyBacklogScoring now book "old" =
        (if 3 ≤ (now - added) / msPerYear then 2
         else if 1 ≤ (now - added) / msPerYear ∧ (now - added) / msPerYear < 3 then 1
         else 0) ∧
      applyBacklogScoring now book "new" =
        (if (now - added) / msPerYear < 1 then 2
         else if 1 ≤ (now - added) / msPerYear ∧ (now - added) / msPerYear < 3 then 1
         else 0)) := by
  refine ⟨rfl, fun h pref => by simp [applyBacklogScoring, h], ?_⟩
  intro added h
  constructor
  · simp only [applyBacklogScoring, h]
    rw [if_pos trivial]
    rcases le_or_lt 3 ((now - added) / msPerYear) with h3 | h3
    · rw [if_pos h3, if_pos h3]
    · rcases le_or_lt 1 ((now - added) / msPerYear) with h1 | h1
      · rw [if_neg (not_le.mpr h3), if_neg (not_le.mpr h3), if_pos h1, if_pos ⟨h1, h3⟩]
      · rw [if_neg (not_le.mpr h3), if_neg (not_le.mpr h3), if_neg (not_le.mpr h1),
          if_neg (fun hc => absurd hc.1 (not_le.mpr h1))]
  · simp only [applyBacklogScoring, h]
    rw [if_neg (by simp), if_pos trivial]
    rcases lt_or_le ((now - added) / msPerYear) 1 with h1 | h1
    · rw [if_pos h1, if_pos h1]
    · rcases lt_or_le ((now - added) / msPerYear) 3 with h3 | h3
      · rw [if_neg (not_lt.mpr h1), if_neg (not_lt.mpr h1), if_pos h3, if_pos ⟨h1, h3⟩]
      · rw [if_neg (not_lt.mpr h1), if_neg (not_lt.mpr h1), if_neg (not_lt.mpr h3),
          if_neg (fun hc => absurd hc.2 (not_lt.mpr h3))]

/-- Witness for C6: a book added exactly two 365-day years before the
clock has backlog bonus 1 under both "old" and "new", and a book with
no dateAdded has bonus 0. -/
theorem applyBacklogScoring_spec_witness :
    applyBacklogScoring 63072000000 (exBook 0 0 0 none (some 0) none) "old" = 1 ∧
    applyBacklogScoring 63072000000 (exBook 0 0 0 none none none) "old" = 0 := by
  have h1 := (applyBacklogScoring_spec 63072000000 (exBook 0 0 0 none (some 0) none)).2.2
    0 rfl
  have h2 := (applyBacklogScoring_spec 63072000000 (exBook 0 0 0 none none none)).2.1
    rfl "old"
  refine ⟨?_, h2⟩
  rw [h1.1]
  norm_num [msPerYear]

/-- Claim C5: with a non-empty profile (both dominant buckets known),
"familiar" adds 1.5 for a length-bucket match, 1.5 for an era-bucket
match and 0.5 for a top author (at most 3.5); "different" adds 1 for a
known length-bucket mismatch, 1 for a known era-bucket mismatch and 0.5
for a non-top author (at most 2.5); with an empty profile the bonus is
0 for every selection. -/
theorem applyBehaviourScoring_spec (book : Book) (p : BehaviourProfile)
    (dl : LengthBucket) (de : EraBucket)
    (hdl : p.dominantLength = some dl) (hde : p.dominantEra = some de) :
    (applyBehaviourScoring book p "familiar" =
        (if lengthBucketOpt book.pages = some dl then 3/2 else 0) +
        (if eraBucketOpt book.publicationYear = some de then 3/2 else 0) +
        (if authorIn book.author p.topAuthors then 1/2 else 0) ∧
      applyBehaviourScoring book p "familiar" ≤ 7/2) ∧
    (applyBehaviourScoring book p "different" =
        (if lengthBucketOpt book.pages ≠ none ∧ lengthBucketOpt book.pages ≠ some dl
          then 1 else 0) +
        (if eraBucketOpt book.publicationYear ≠ none ∧ eraBucketOpt book.publicationYear ≠ some de
          then 1 else 0) +
        (if authorIn book.author p.topAuthors then 0 else 1/2) ∧
      applyBehaviourScoring book p "different" ≤ 5/2) ∧
    (∀ q : BehaviourProfile, q.dominantLength = none → q.dominantEra = none →
      ∀ pref, applyBehaviourScoring book q pref = 0) := by
  have hfam : applyBehaviourScoring book p "familiar" =
      (if lengthBucketOpt book.pages = some dl then 3/2 else 0) +
      (if eraBucketOpt book.publicationYear = some de then 3/2 else 0) +
      (if authorIn book.author p.topAuthors then 1/2 else 0) := by
    simp only [applyBehaviourScoring, hdl, hde, lengthBucketOpt_eq_some, eraBucketOpt_eq_some]
    rw [if_neg (by simp), if_pos trivial]
  have hdif : applyBehaviourScoring book p "different" =
      (if lengthBucketOpt book.pages ≠ none ∧ lengthBucketOpt book.pages ≠ some dl
        then 1 else 0) +
      (if eraBucketOpt book.publicationYear ≠ none ∧ eraBucketOpt book.publicationYear ≠ some de
        then 1 else 0) +
      (if authorIn book.author p.topAuthors then 0 else 1/2) := by
    simp only [applyBehaviourScoring, hdl, hde, lengthBucketOpt_known_ne, eraBucketOpt_known_ne]
    rw [if_neg (by simp), if_neg (by simp), if_pos trivial]
  refine ⟨⟨hfam, ?_⟩, ⟨hdif, ?_⟩, fun q h1 h2 pref => by simp [applyBehaviourScoring, h1, h2]⟩
  · rw [hfam]
    split_ifs <;> norm_num
  · rw [hdif]
    split_ifs <;> norm_num

/-- Witness for C5: a 200-page 2010 book by a top author, against a
profile dominated by quick modern books, gets the maximal familiar
bonus 3.5 and the empty-profile bonus 0. -/
theorem applyBehaviourScoring_spec_witness :
    applyBehaviourScoring (exBook 200 2010 4 (some "Author A") none none)
        { dominantLength := some .quick, dominantEra := some .modern,
          topAuthors := ["Author A"], avgRating := 4 } "familiar" = 7/2 ∧
    applyBehaviourScoring (exBook 200 2010 4 (some "Author A") none none)
        { dominantLength := none, dominantEra := none, topAuthors := [], avgRating := 0 }
        "familiar" = 0 := by
  have h := applyBehaviourScoring_spec (exBook 200 2010 4 (some "Author A") none none)
      { dominantLength := some .quick, dominantEra := some .modern,
        topAuthors := ["Author A"], avgRating := 4 } .quick .modern rfl rfl
  constructor
  · rw [h.1.1]
    norm_num [lengthBucketOpt, lengthBucketOf, eraBucketOpt, eraBucketOf, authorIn, exBook]
  · exact h.2.2 { dominantLength := none, dominantEra := none, topAuthors := [], avgRating := 0 }
      rfl rfl "familiar"

/-- Counterexample to claim C2 as stated: on a backward transition from
step 4 to step 3, the step-2 selection — which belongs to a step at or
before the target — is also cleared (the code keys the clearing on the
current step, not on the target). -/
theorem goBack_clears_at_or_before_target_cex :
    (({ currentStep := 4,
        selections := { timeInvestment := "any", behaviourPreference := "familiar",
                        backlogPreference := "old", riskPreference := "" },
        candidates := [], allBooks := [], behaviourProfile := none } : DecisionState)).selections.behaviourPreference = "familiar" ∧
    (goBack
      { currentStep := 4,
        selections := { timeInvestment := "any", behaviourPreference := "familiar",
                        backlogPreference := "old", riskPreference := "" },
        candidates := [], allBooks := [], behaviourProfile := none }
      3).selections.behaviourPreference = "" := by
  constructor
  · rfl
  · rfl

/-- Claim C2 (amended): a backward transition to a target strictly
below the current step clears the selections as decided by the CURRENT
step (risk iff currentStep > 3, backlog iff currentStep > 2, behaviour
iff currentStep > 1, hence possibly selections of steps at or before
the target); a target of step 1 additionally restores candidates from
allBooks and clears the step-1 selection, while any other target leaves
candidates and the step-1 selection unchanged; the step pointer moves
to the target and allBooks and the profile are untouched. -/
theorem goBack_spec (st : DecisionState) (t : Nat) (h : t < st.currentStep) :
    (goBack st t).currentStep = t ∧
    (goBack st t).allBooks = st.allBooks ∧
    (goBack st t).behaviourProfile = st.behaviourProfile ∧
    (goBack st t).selections.riskPreference =
      (if 3 < st.currentStep then "" else st.selections.riskPreference) ∧
    (goBack st t).selections.backlogPreference =
      (if 2 < st.currentStep then "" else st.selections.backlogPreference) ∧
    (goBack st t).selections.behaviourPreference =
      (if 1 < st.currentStep then "" else st.selections.behaviourPreference) ∧
    (if t = 1 then
      (goBack st t).candidates = st.allBooks ∧ (goBack st t).selections.timeInvestment = ""
    else
      (goBack st t).candidates = st.candidates ∧
      (goBack st t).selections.timeInvestment = st.selections.timeInvestment) := by
  obtain ⟨cs, ⟨s1, s2, s3, s4⟩, cand, ab, bp⟩ := st
  simp only [goBack] at h ⊢
  rw [if_pos h]
  split_ifs <;> simp_all

/-- Witness for C2 at the example of the spec: going back from step 3
to step 1 clears the step-2 and step-3 selections, clears the step-1
selection and restores candidates from allBooks. -/
theorem goBack_spec_witness :
    (goBack
      { currentStep := 3,
        selections := { timeInvestment := "quick", behaviourPreference := "familiar",
                        backlogPreference := "old", riskPreference := "" },
        candidates := [], allBooks := [exBook 400 0 0 none none none],
        behaviourProfile := none } 1).currentStep = 1 ∧
    (goBack
      { currentStep := 3,
        selections := { timeInvestment := "quick", behaviourPreference := "familiar",
                        backlogPreference := "old", riskPreference := "" },
        candidates := [], allBooks := [exBook 400 0 0 none none none],
        behaviourProfile := none } 1).candidates = [exBook 400 0 0 none none none] := by
  have h := goBack_spec
    { currentStep := 3,
      selections := { timeInvestment := "quick", behaviourPreference := "familiar",
                      backlogPreference := "old", riskPreference := "" },
      candidates := [], allBooks := [exBook 400 0 0 none none none],
      behaviourProfile := none } 1 (by decide)
  exact ⟨h.1, (if_pos rfl ▸ h.2.2.2.2.2.2 : _).1⟩

/-- Claim C3 (evaluating the code at the failing input): after a
rejected step-1 transition the funnel stays at step 1 with candidates
unchanged, but the attempted selection HAS taken effect (it is stored
before the emptiness check), and the relax-constraint recovery restores
candidates yet does not clear the step-1 selection, because its guard
`currentStep === 2` never holds after a rejection. -/
theorem step1_rejection_not_atomic :
    rejectedState.currentStep = 1 ∧
    rejectedState.candidates = [relaxBook] ∧
    rejectedState.selections.timeInvestment = "quick" ∧
    (relaxConstraint rejectedState).candidates = [relaxBook] ∧
    (relaxConstraint rejectedState).selections.timeInvestment = "quick" := by
  refine ⟨?_, ?_, ?_, ?_, ?_⟩ <;> decide

theorem stepClick_allBooks (st : DecisionState) (f v : String) :
    (stepClick st f v).allBooks = st.allBooks := by
  simp only [stepClick]
  split_ifs <;> rfl

theorem stepClick_behaviourProfile (st : DecisionState) (f v : String) :
    (stepClick st f v).behaviourProfile = st.behaviourProfile := by
  simp only [stepClick]
  split_ifs <;> rfl

theorem applyClicks_allBooks_profile (clicks : List (String × String)) (st : DecisionState) :
    (applyClicks st clicks).allBooks = st.allBooks ∧
    (applyClicks st clicks).behaviourProfile = st.behaviourProfile := by
  induction clicks generalizing st with
  | nil => exact ⟨rfl, rfl⟩
  | cons e es ih =>
    simp only [applyClicks, List.foldl_cons] at ih ⊢
    refine ⟨(ih (stepClick st e.1 e.2)).1.trans (stepClick_allBooks st e.1 e.2), ?_⟩
    exact (ih (stepClick st e.1 e.2)).2.trans (stepClick_behaviourProfile st e.1 e.2)

/-- Claim C9: after any sequence of forward step-button clicks from a
freshly initialized funnel, resetDecisionFlow restores exactly the
state produced by first construction: step 1, full backlog as
candidates, all selections empty, and the behaviour profile as derived
at initialization (it is never recomputed). -/
theorem resetDecisionFlow_restores_init (books wtr : List Book)
    (clicks : List (String × String)) :
    resetDecisionFlow (applyClicks (initDecisionEngine books wtr) clicks) =
      initDecisionEngine books wtr := by
  obtain ⟨h1, h2⟩ := applyClicks_allBooks_profile clicks (initDecisionEngine books wtr)
  have h1' : (applyClicks (initDecisionEngine books wtr) clicks).allBooks = wtr := h1.trans rfl
  have h2' : (applyClicks (initDecisionEngine books wtr) clicks).behaviourProfile =
      some (deriveBehaviourProfile books) := h2.trans rfl
  show _ = DecisionState.mk 1 emptySelections wtr wtr (some (deriveBehaviourProfile books))
  simp only [resetDecisionFlow, DecisionState.mk.injEq]
  exact ⟨trivial, trivial, h1', h1', h2'⟩

theorem applyTimeFilter_sublist (books : List Book) (sel : String) :
    (applyTimeFilter books sel).Sublist books := by
  unfold applyTimeFilter
  split_ifs <;> first | exact List.Sublist.refl _ | exact List.filter_sublist _

theorem stepClick_candidates_sublist (st : DecisionState) (f v : String) :
    (stepClick st f v).candidates.Sublist st.candidates := by
  simp only [stepClick]
  split_ifs <;> first | exact List.Sublist.refl _ | exact applyTimeFilter_sublist _ _

theorem applyEvent_invariant (st : DecisionState) (e : FunnelEvent)
    (h : st.candidates.Sublist st.allBooks) :
    (applyEvent st e).candidates.Sublist (applyEvent st e).allBooks ∧
    (applyEvent st e).allBooks = st.allBooks := by
  cases e with
  | click f v =>
    refine ⟨?_, stepClick_allBooks st f v⟩
    rw [show (applyEvent st (.click f v)).allBooks = st.allBooks from stepClick_allBooks st f v]
    exact (stepClick_candidates_sublist st f v).trans h
  | back t =>
    simp only [applyEvent, goBack]
    split_ifs <;> first | exact ⟨List.Sublist.refl _, rfl⟩ | exact ⟨h, rfl⟩
  | relax =>
    simp only [applyEvent, relaxConstraint]
    split_ifs <;> exact ⟨List.Sublist.refl _, rfl⟩
  | reset => exact ⟨List.Sublist.refl _, rfl⟩

theorem applyEvents_invariant (evs : List FunnelEvent) (st : DecisionState)
    (h : st.candidates.Sublist st.allBooks) :
    (applyEvents st evs).candidates.Sublist (applyEvents st evs).allBooks ∧
    (applyEvents st evs).allBooks = st.allBooks := by
  induction evs generalizing st with
  | nil => exact ⟨h, rfl⟩
  | cons e es ih =>
    simp only [applyEvents, List.foldl_cons] at ih ⊢
    obtain ⟨h1, h2⟩ := applyEvent_invariant st e h
    obtain ⟨h3, h4⟩ := ih (applyEvent st e) h1
    exact ⟨h3, h4.trans h2⟩

theorem top_mem_nearTieSet (top : Book × ℚ) (rest : List (Book × ℚ)) :
    top ∈ nearTieSet top rest := by
  refine List.mem_filter.mpr ⟨List.mem_cons_self top rest, ?_⟩
  simp only [decide_eq_true_eq]
  linarith

theorem recWinner_mem (top : Book × ℚ) (rest : List (Book × ℚ)) (pick : Nat) :
    recWinner top rest pick ∈ nearTieSet top rest := by
  cases rest with
  | nil => exact top_mem_nearTieSet _ _
  | cons second rs =>
    rw [show recWinner top (second :: rs) pick =
        (if top.2 - 1/2 ≤ second.2 then
          (nearTieSet top (second :: rs)).getD
            (pick % (nearTieSet top (second :: rs)).length) top
        else top) from rfl]
    split_ifs with hcl
    · have hne : nearTieSet top (second :: rs) ≠ [] :=
        List.ne_nil_of_mem (top_mem_nearTieSet top (second :: rs))
      have hlt : pick % (nearTieSet top (second :: rs)).length <
          (nearTieSet top (second :: rs)).length :=
        Nat.mod_lt _ (List.length_pos.mpr hne)
      rw [List.getD_eq_getElem _ _ hlt]
      exact List.getElem_mem _
    · exact top_mem_nearTieSet _ _

theorem runRecommendation_eq (st : DecisionState) (now : ℚ) (pick : Nat)
    (hne : st.candidates ≠ []) (top : Book × ℚ) (rest : List (Book × ℚ))
    (hsort : sortDescBy (fun (s : Book × ℚ) => s.2) (scoredCandidates st now) = top :: rest) :
    runRecommendation st now pick =
      some { book := (recWinner top rest pick).1, score := (recWinner top rest pick).2,
             totalCandidates := (scoredCandidates st now).length } := by
  unfold runRecommendation
  rw [if_neg hne, hsort]

theorem runRecommendation_book_mem (st : DecisionState) (now : ℚ) (pick : Nat)
    (r : Recommendation) (h : runRecommendation st now pick = some r) :
    r.book ∈ st.candidates := by
  by_cases hc : st.candidates = []
  · rw [runRecommendation, if_pos hc] at h
    cases h
  · rcases hsort : sortDescBy (fun (s : Book × ℚ) => s.2) (scoredCandidates st now) with
      _ | ⟨top, rest⟩
    · rw [runRecommendation, if_neg hc, hsort] at h
      cases h
    · rw [runRecommendation_eq st now pick hc top rest hsort] at h
      have hw : recWinner top rest pick ∈ top :: rest :=
        List.mem_of_mem_filter (recWinner_mem top rest pick)
      have hmem : recWinner top rest pick ∈ scoredCandidates st now :=
        ((hsort ▸ sortDescBy_perm (fun (s : Book × ℚ) => s.2)
          (scoredCandidates st now)).mem_iff).mp hw
      obtain ⟨b, hb, hbe⟩ := List.mem_map.mp hmem
      have : r.book = (recWinner top rest pick).1 := by
        cases h
        rfl
      rw [this, ← hbe]
      exact hb

/-- Claim C10: from an initialized funnel, every state reachable by any
sequence of step clicks, back clicks, relax-constraint clicks and
resets keeps candidates an order-preserving subsequence (sublist) of
the original backlog; hence the candidate count never exceeds the
backlog size and every recommended book comes from the original
backlog. -/
theorem funnel_candidates_invariant (books wtr : List Book) (evs : List FunnelEvent) :
    (applyEvents (initDecisionEngine books wtr) evs).allBooks = wtr ∧
    (applyEvents (initDecisionEngine books wtr) evs).candidates.Sublist wtr ∧
    (applyEvents (initDecisionEngine books wtr) evs).candidates.length ≤ wtr.length ∧
    ∀ (now : ℚ) (pick : Nat) (r : Recommendation),
      runRecommendation (applyEvents (initDecisionEngine books wtr) evs) now pick = some r →
      r.book ∈ wtr := by
  obtain ⟨hsub, hab⟩ :=
    applyEvents_invariant evs (initDecisionEngine books wtr) (List.Sublist.refl wtr)
  have hab' : (applyEvents (initDecisionEngine books wtr) evs).allBooks = wtr := hab.trans rfl
  rw [hab'] at hsub
  refine ⟨hab', hsub, hsub.length_le, ?_⟩
  intro now pick r hr
  exact hsub.subset (runRecommendation_book_mem _ now pick r hr)

/-- Witness for C10: with a one-book backlog and no interactions, the
recommendation hypothesis is satisfied concretely and the recommended
book is the backlog book. -/
theorem funnel_candidates_invariant_witness :
    exBook 200 0 4 none none none ∈ [exBook 200 0 4 none none none] := by
  have hrec : runRecommendation
      (applyEvents (initDecisionEngine [] [exBook 200 0 4 none none none]) []) 0 0 =
      some { book := exBook 200 0 4 none none none, score := 4, totalCandidates := 1 } := by
    have hscore : calculateFinalScore (some (deriveBehaviourProfile [])) emptySelections 0
        (exBook 200 0 4 none none none) = 4 := by
      simp [calculateFinalScore, emptySelections, exBook]
    simp [applyEvents, runRecommendation, initDecisionEngine, scoredCandidates, sortDescBy,
      List.insertionSort, List.orderedInsert, recWinner, hscore]
  exact (funnel_candidates_invariant [] [exBook 200 0 4 none none none] []).2.2.2 0 0
    { book := exBook 200 0 4 none none none, score := 4, totalCandidates := 1 } hrec

theorem recWinner_surjective (top : Book × ℚ) (rest : List (Book × ℚ))
    (hsorted : (top :: rest).Sorted (fun a b : Book × ℚ => b.2 ≤ a.2)) :
    ∀ w ∈ nearTieSet top rest, ∃ pick, recWinner top rest pick = w := by
  intro w hw
  cases rest with
  | nil =>
    have hw' : w = top := by
      have := (List.mem_filter.mp hw).1
      simpa using this
    exact ⟨0, hw'.symm⟩
  | cons second rs =>
    by_cases hcl : top.2 - 1/2 ≤ second.2
    · obtain ⟨i, hi, hget⟩ := List.getElem_of_mem hw
      refine ⟨i, ?_⟩
      rw [show recWinner top (second :: rs) i =
          (if top.2 - 1/2 ≤ second.2 then
            (nearTieSet top (second :: rs)).getD
              (i % (nearTieSet top (second :: rs)).length) top
          else top) from rfl, if_pos hcl, Nat.mod_eq_of_lt hi,
        List.getD_eq_getElem _ _ hi]
      exact hget
    · have hw' : w = top := by
        obtain ⟨hmem, hpass⟩ := List.mem_filter.mp hw
        rcases List.mem_cons.mp hmem with h | h
        · exact h
        · exfalso
          have hle : w.2 ≤ second.2 := by
            rcases List.mem_cons.mp h with h2 | h2
            · exact h2 ▸ le_refl _
            · exact (List.sorted_cons.mp (List.sorted_cons.mp hsorted).2).1 w h2
          have hge : top.2 - 1/2 ≤ w.2 := by simpa using hpass
          exact hcl (le_trans hge hle)
      refine ⟨0, ?_⟩
      rw [show recWinner top (second :: rs) 0 =
          (if top.2 - 1/2 ≤ second.2 then
            (nearTieSet top (second :: rs)).getD
              (0 % (nearTieSet top (second :: rs)).length) top
          else top) from rfl, if_neg hcl]
      exact hw'.symm

theorem recWinner_of_singleton (top : Book × ℚ) (rest : List (Book × ℚ))
    (h : nearTieSet top rest = [top]) (pick : Nat) : recWinner top rest pick = top := by
  cases rest with
  | nil => rfl
  | cons second rs =>
    rw [show recWinner top (second :: rs) pick =
        (if top.2 - 1/2 ≤ second.2 then
          (nearTieSet top (second :: rs)).getD
            (pick % (nearTieSet top (second :: rs)).length) top
        else top) from rfl]
    split_ifs with hcl
    · rw [h]
      simp [Nat.mod_one]
    · rfl

/-- Claim C1: for a non-empty candidate list the recommendation sorts
the scored candidates descending by score; the eligible (near-tie) set
is exactly the scored candidates whose score is at least the top score
minus 0.5; every random draw returns a member of the eligible set,
every member of the eligible set is returned by some draw, a candidate
scoring below top − 0.5 is never returned, and when the eligible set is
just the top scorer the result is deterministic. -/
theorem runRecommendation_tie_break (st : DecisionState) (now : ℚ)
    (hne : st.candidates ≠ []) :
    ∃ top rest,
      sortDescBy (fun (s : Book × ℚ) => s.2) (scoredCandidates st now) = top :: rest ∧
      (top :: rest).Sorted (fun a b : Book × ℚ => b.2 ≤ a.2) ∧
      (top :: rest).Perm (scoredCandidates st now) ∧
      (∀ s : Book × ℚ, s ∈ nearTieSet top rest ↔ s ∈ top :: rest ∧ top.2 - 1/2 ≤ s.2) ∧
      (∀ pick : Nat, ∃ w ∈ nearTieSet top rest,
        runRecommendation st now pick =
          some { book := w.1, score := w.2,
                 totalCandidates := (scoredCandidates st now).length }) ∧
      (∀ w ∈ nearTieSet top rest, ∃ pick : Nat,
        runRecommendation st now pick =
          some { book := w.1, score := w.2,
                 totalCandidates := (scoredCandidates st now).length }) ∧
      (∀ (pick : Nat) (r : Recommendation),
        runRecommendation st now pick = some r → top.2 - 1/2 ≤ r.score) ∧
      (nearTieSet top rest = [top] → ∀ pick : Nat,
        runRecommendation st now pick =
          some { book := top.1, score := top.2,
                 totalCandidates := (scoredCandidates st now).length }) := by
  have hscored : scoredCandidates st now ≠ [] := by
    simpa [scoredCandidates] using hne
  obtain ⟨top, rest, hsort⟩ :
      ∃ top rest, sortDescBy (fun (s : Book × ℚ) => s.2) (scoredCandidates st now) =
        top :: rest := by
    rcases hs : sortDescBy (fun (s : Book × ℚ) => s.2) (scoredCandidates st now) with
      _ | ⟨t, r⟩
    · exfalso
      have hlen := (sortDescBy_perm (fun (s : Book × ℚ) => s.2)
        (scoredCandidates st now)).length_eq
      rw [hs] at hlen
      exact hscored (List.length_eq_zero.mp hlen.symm)
    · exact ⟨t, r, rfl⟩
  have hsorted : (top :: rest).Sorted (fun a b : Book × ℚ => b.2 ≤ a.2) :=
    hsort ▸ sortDescBy_sorted _ _
  have hperm : (top :: rest).Perm (scoredCandidates st now) :=
    hsort ▸ sortDescBy_perm _ _
  refine ⟨top, rest, hsort, hsorted, hperm, ?_, ?_, ?_, ?_, ?_⟩
  · intro s
    rw [nearTieSet, List.mem_filter, decide_eq_true_eq]
  · intro pick
    exact ⟨recWinner top rest pick, recWinner_mem top rest pick,
      runRecommendation_eq st now pick hne top rest hsort⟩
  · intro w hw
    obtain ⟨pick, hp⟩ := recWinner_surjective top rest hsorted w hw
    refine ⟨pick, ?_⟩
    rw [runRecommendation_eq st now pick hne top rest hsort, hp]
  · intro pick r hr
    rw [runRecommendation_eq st now pick hne top rest hsort] at hr
    cases hr
    have := (List.mem_filter.mp (recWinner_mem top rest pick)).2
    simpa using this
  · intro hsingle pick
    rw [runRecommendation_eq st now pick hne top rest hsort,
      recWinner_of_singleton top rest hsingle pick]

/-- Witness for C1 at the near-tie example of the spec (candidate
scores 5, 4.6 and 3): the tie-break theorem applies to the concrete
state, with non-emptiness discharged by evaluation. -/
theorem runRecommendation_tie_break_witness :
    ∃ top rest,
      sortDescBy (fun (s : Book × ℚ) => s.2) (scoredCandidates nearTieState 0) = top :: rest ∧
      (top :: rest).Sorted (fun a b : Book × ℚ => b.2 ≤ a.2) ∧
      (top :: rest).Perm (scoredCandidates nearTieState 0) ∧
      (∀ s : Book × ℚ, s ∈ nearTieSet top rest ↔ s ∈ top :: rest ∧ top.2 - 1/2 ≤ s.2) ∧
      (∀ pick : Nat, ∃ w ∈ nearTieSet top rest,
        runRecommendation nearTieState 0 pick =
          some { book := w.1, score := w.2,
                 totalCandidates := (scoredCandidates nearTieState 0).length }) ∧
      (∀ w ∈ nearTieSet top rest, ∃ pick : Nat,
        runRecommendation nearTieState 0 pick =
          some { book := w.1, score := w.2,
                 totalCandidates := (scoredCandidates nearTieState 0).length }) ∧
      (∀ (pick : Nat) (r : Recommendation),
        runRecommendation nearTieState 0 pick = some r → top.2 - 1/2 ≤ r.score) ∧
      (nearTieSet top rest = [top] → ∀ pick : Nat,
        runRecommendation nearTieState 0 pick =
          some { book := top.1, score := top.2,
                 totalCandidates := (scoredCandidates nearTieState 0).length }) :=
  runRecommendation_tie_break nearTieState 0 (by decide)

theorem head3_cases {γ : Type} (a b c : γ) (ka kb kc : Nat) :
    ((sortDescBy (fun e : γ × Nat => e.2) [(a, ka), (b, kb), (c, kc)]).headD (a, 0)).1 =
      if kc ≤ kb then (if kb ≤ ka then a else b)
      else (if kc ≤ ka then a else c) := by
  by_cases h1 : kc ≤ kb <;> by_cases h2 : kb ≤ ka <;> by_cases h3 : kc ≤ ka <;>
    simp [sortDescBy, List.insertionSort, List.orderedInsert, h1, h2, h3]

theorem dominant3_spec {γ : Type} (a b c : γ) (ord cnt : γ → Nat)
    (hoa : ord a = 0) (hob : ord b = 1) (hoc : ord c = 2)
    (hall : ∀ t : γ, t = a ∨ t = b ∨ t = c) :
    ∃ d, ((sortDescBy (fun e : γ × Nat => e.2)
        [(a, cnt a), (b, cnt b), (c, cnt c)]).headD (a, 0)).1 = d ∧
      (∀ t, cnt t ≤ cnt d) ∧ (∀ t, ord t < ord d → cnt t < cnt d) := by
  rw [head3_cases]
  split_ifs with h1 h2 h3
  · exact ⟨a, rfl,
      fun t => by rcases hall t with rfl | rfl | rfl <;> omega,
      fun t ht => by rcases hall t with rfl | rfl | rfl <;> omega⟩
  · exact ⟨b, rfl,
      fun t => by rcases hall t with rfl | rfl | rfl <;> omega,
      fun t ht => by rcases hall t with rfl | rfl | rfl <;> omega⟩
  · exact ⟨a, rfl,
      fun t => by rcases hall t with rfl | rfl | rfl <;> omega,
      fun t ht => by rcases hall t with rfl | rfl | rfl <;> omega⟩
  · exact ⟨c, rfl,
      fun t => by rcases hall t with rfl | rfl | rfl <;> omega,
      fun t ht => by rcases hall t with rfl | rfl | rfl <;> omega⟩

/-- Claim C8: with a non-empty read set, the dominant length bucket is
a bucket of maximal count among the read books with known page counts,
ties resolved by the fixed enumeration order quick, moderate, long
(the first bucket in that order attaining the maximum wins — so with
all counts zero, quick is returned rather than null), and likewise the
dominant era over classic, late20th, modern. -/
theorem deriveBehaviourProfile_dominant (books : List Book)
    (hne : books.filter (fun b => b.dateRead ≠ none) ≠ []) :
    ∃ dl de,
      (deriveBehaviourProfile books).dominantLength = some dl ∧
      (deriveBehaviourProfile books).dominantEra = some de ∧
      (∀ t, lengthCountOf (books.filter (fun b => b.dateRead ≠ none)) t ≤
        lengthCountOf (books.filter (fun b => b.dateRead ≠ none)) dl) ∧
      (∀ t, lengthOrder t < lengthOrder dl →
        lengthCountOf (books.filter (fun b => b.dateRead ≠ none)) t <
        lengthCountOf (books.filter (fun b => b.dateRead ≠ none)) dl) ∧
      (∀ t, eraCountOf (books.filter (fun b => b.dateRead ≠ none)) t ≤
        eraCountOf (books.filter (fun b => b.dateRead ≠ none)) de) ∧
      (∀ t, eraOrder t < eraOrder de →
        eraCountOf (books.filter (fun b => b.dateRead ≠ none)) t <
        eraCountOf (books.filter (fun b => b.dateRead ≠ none)) de) := by
  obtain ⟨dl, hdl, hmaxl, hstrl⟩ := dominant3_spec LengthBucket.quick LengthBucket.moderate
    LengthBucket.long lengthOrder (lengthCountOf (books.filter (fun b => b.dateRead ≠ none)))
    rfl rfl rfl (fun t => by cases t <;> simp)
  obtain ⟨de, hde, hmaxe, hstre⟩ := dominant3_spec EraBucket.classic EraBucket.late20th
    EraBucket.modern eraOrder (eraCountOf (books.filter (fun b => b.dateRead ≠ none)))
    rfl rfl rfl (fun t => by cases t <;> simp)
  refine ⟨dl, de, ?_, ?_, hmaxl, hstrl, hmaxe, hstre⟩
  · simp only [deriveBehaviourProfile]
    rw [if_neg hne]
    exact congrArg some hdl
  · simp only [deriveBehaviourProfile]
    rw [if_neg hne]
    exact congrArg some hde

/-- Witness for C8 at the degenerate input of the claim: one read book
with unknown page count and year gives all counts 0 and dominant
buckets quick and classic (the first in enumeration order), not null. -/
theorem deriveBehaviourProfile_dominant_witness :
    ∃ dl de,
      (deriveBehaviourProfile [exBook 0 0 0 none none (some "2024")]).dominantLength = some dl ∧
      (deriveBehaviourProfile [exBook 0 0 0 none none (some "2024")]).dominantEra = some de ∧
      (∀ t, lengthCountOf ([exBook 0 0 0 none none (some "2024")].filter
          (fun b => b.dateRead ≠ none)) t ≤
        lengthCountOf ([exBook 0 0 0 none none (some "2024")].filter
          (fun b => b.dateRead ≠ none)) dl) ∧
      (∀ t, lengthOrder t < lengthOrder dl →
        lengthCountOf ([exBook 0 0 0 none none (some "2024")].filter
          (fun b => b.dateRead ≠ none)) t <
        lengthCountOf ([exBook 0 0 0 none none (some "2024")].filter
          (fun b => b.dateRead ≠ none)) dl) ∧
      (∀ t, eraCountOf ([exBook 0 0 0 none none (some "2024")].filter
          (fun b => b.dateRead ≠ none)) t ≤
        eraCountOf ([exBook 0 0 0 none none (some "2024")].filter
          (fun b => b.dateRead ≠ none)) de) ∧
      (∀ t, eraOrder t < eraOrder de →
        eraCountOf ([exBook 0 0 0 none none (some "2024")].filter
          (fun b => b.dateRead ≠ none)) t <
        eraCountOf ([exBook 0 0 0 none none (some "2024")].filter
          (fun b => b.dateRead ≠ none)) de) :=
  deriveBehaviourProfile_dominant [exBook 0 0 0 none none (some "2024")] (by decide)

end GoodreadsFunnel
